import Mathlib

/-!
Shallow embedding of `printer_emulator.py`: an ESC/POS receipt-printer
emulator.  The core walks a byte stream, decodes control sequences
(families ESC, GS, FS), mutates a `PrinterState`, accumulates printable
characters into a current line, and renders flushed lines into a receipt
buffer.

Bytes are modelled as `Nat` (a Python `bytearray` element is 0..255, but
none of the decoding arithmetic needs the upper bound).  A Python indexing
expression `data[k]` can raise `IndexError`, so it is modelled as the
`Option`-valued access `data[k]?` bound in the `Option` monad: a decoder
result of `none` marks an execution that would have raised.
-/

namespace PrinterEmu

/-- The control-byte constants of the `PrinterCommand` enum. -/
def ESC : Nat := 0x1B

/-- `GS` introducer byte. -/
def GS : Nat := 0x1D

/-- `FS` introducer byte. -/
def FS : Nat := 0x1C

/-- Line feed. -/
def LF : Nat := 0x0A

/-- Carriage return. -/
def CR : Nat := 0x0D

/-- The `PrinterState` dataclass with its default field values. -/
structure PrinterState where
  chars_per_line : Nat := 48
  alignment : Nat := 0
  bold : Bool := false
  underline : Bool := false
  double_width : Bool := false
  double_height : Bool := false
  font_size : Nat := 1
  char_spacing : Nat := 0
  line_spacing : Nat := 30
  code_page : Nat := 0
  white_on_black : Bool := false
  upside_down : Bool := false
  emphasized : Bool := false
  double_strike : Bool := false
  font_b : Bool := false
  italic : Bool := false
deriving Repr, DecidableEq

/-- The mutable fields of the `ESCPOSSimulator` object as set up by
`__init__`: the printer state, the receipt buffer of rendered lines, and
the in-progress current line. -/
structure Simulator where
  port : Nat := 9100
  state : PrinterState := {}
  buffer : List String := []
  current_line : String := ""
deriving Repr, DecidableEq

/-- A run of `n` spaces (Python pad fill). -/
def spaces (n : Nat) : String := String.mk (List.replicate n ' ')

/-- Model of Python `str.ljust(width)` with the default space fill:
returns the string unchanged when it is already at least `width` long,
otherwise pads on the right. -/
def pyLjust (s : String) (width : Nat) : String :=
  if s.length ≥ width then s else s ++ spaces (width - s.length)

/-- Model of Python `str.rjust(width)`: pad on the left. -/
def pyRjust (s : String) (width : Nat) : String :=
  if s.length ≥ width then s else spaces (width - s.length) ++ s

/-- Model of Python `str.center(width)` (CPython `unicode_center_impl`):
with `marg = width - len(s)`, the left pad is
`marg / 2 + (marg &&& width &&& 1)` and the right pad is the rest. -/
def pyCenter (s : String) (width : Nat) : String :=
  if s.length ≥ width then s
  else
    let marg := width - s.length
    let left := marg / 2 + (marg &&& width &&& 1)
    spaces left ++ s ++ spaces (marg - left)

/-- Model of Python `' '.join(list(text))`: a single space between every
pair of adjacent characters. -/
def spaceJoin (s : String) : String :=
  String.intercalate " " (s.data.map (fun c => String.mk [c]))

/-- `format_line`: width computation, justification, emphasis annotation,
then horizontal-scaling expansion, in the source's order. -/
def format_line (st : PrinterState) (text : String) : String :=
  let effective_width := st.chars_per_line
  let effective_width := if st.double_width then effective_width / 2 else effective_width
  let effective_width :=
    if st.font_size > 1 then effective_width / st.font_size else effective_width
  let text :=
    if st.alignment = 1 then pyCenter text effective_width
    else if st.alignment = 2 then pyRjust text effective_width
    else pyLjust text effective_width
  let text := if st.emphasized then "\x1b[1m" ++ text ++ "\x1b[0m" else text
  if st.double_width || st.font_size > 1 then spaceJoin text else text

/-- `flush_line`: if the current line is non-empty, render it with the
current state, append it to the buffer and clear it; otherwise no-op. -/
def flush_line (s : Simulator) : Simulator :=
  if s.current_line ≠ "" then
    { s with buffer := s.buffer ++ [format_line s.state s.current_line], current_line := "" }
  else s

/-- `handle_esc_sequence(data, i)`: ESC-family sub-decoder.  Returns the
next cursor position and the updated simulator, or `none` where the
Python code would have raised on an index access. -/
def handle_esc_sequence (s : Simulator) (data : List Nat) (i : Nat) :
    Option (Nat × Simulator) :=
  if i + 1 ≥ data.length then some (i + 1, s)
  else do
    let cmd ← data[i + 1]?
    if cmd = 0x40 then
      -- ESC @ : reset the printer state to a fresh default record
      some (i + 2, { s with state := {} })
    else if cmd = 0x61 then
      -- ESC a n : select justification
      if i + 2 < data.length then do
        let s := flush_line s
        let n ← data[i + 2]?
        some (i + 3, { s with state := { s.state with alignment := n % 3 } })
      else some (i + 3, s)
    else if cmd = 0x45 then
      -- ESC E n : emphasized mode on/off
      if i + 2 < data.length then do
        let n ← data[i + 2]?
        some (i + 3, { s with state := { s.state with emphasized := n != 0 } })
      else some (i + 3, s)
    else if cmd = 0x64 then
      -- ESC d n : print and feed n lines
      if i + 2 < data.length then do
        let s := flush_line s
        let n ← data[i + 2]?
        some (i + 3, { s with buffer := s.buffer ++ List.replicate n "" })
      else some (i + 3, s)
    else if cmd = 0x24 then
      -- ESC $ nL nH : absolute print position (ignored)
      some (i + 4, s)
    else if cmd = 0x74 then
      -- ESC t n : select character code table
      if i + 2 < data.length then do
        let n ← data[i + 2]?
        some (i + 3, { s with state := { s.state with code_page := n } })
      else some (i + 3, s)
    else if cmd = 0x21 then
      -- ESC ! n : select print modes
      if i + 2 < data.length then do
        let n ← data[i + 2]?
        some (i + 3, { s with state :=
          { s.state with
            font_b := n &&& 1 != 0
            emphasized := n &&& 8 != 0
            double_height := n &&& 16 != 0
            double_width := n &&& 32 != 0 } })
      else some (i + 3, s)
    else
      some (i + 2, s)

/-- `handle_gs_sequence(data, i)`: GS-family sub-decoder. -/
def handle_gs_sequence (s : Simulator) (data : List Nat) (i : Nat) :
    Option (Nat × Simulator) :=
  if i + 1 ≥ data.length then some (i + 1, s)
  else do
    let cmd ← data[i + 1]?
    if cmd = 0x56 then
      -- GS V n : cut paper
      let s := flush_line s
      some (i + 3, { s with
        buffer := s.buffer ++ [String.mk (List.replicate s.state.chars_per_line '-')] })
    else if cmd = 0x21 then
      -- GS ! n : select character size
      if i + 2 < data.length then do
        let n ← data[i + 2]?
        let width_mag := ((n &&& 0x70) >>> 4) + 1
        let height_mag := (n &&& 0x07) + 1
        some (i + 3, { s with state := { s.state with font_size := max width_mag height_mag } })
      else some (i + 3, s)
    else
      some (i + 2, s)

/-- `handle_fs_sequence(data, i)`: FS-family sub-decoder (all no-ops). -/
def handle_fs_sequence (s : Simulator) (data : List Nat) (i : Nat) :
    Option (Nat × Simulator) :=
  if i + 1 ≥ data.length then some (i + 1, s)
  else do
    let cmd ← data[i + 1]?
    if cmd = 0x2E then some (i + 2, s)
    else some (i + 2, s)

/-- One iteration of the `process_data` while-loop body: dispatch on the
byte at the cursor. -/
def step (data : List Nat) (i : Nat) (s : Simulator) : Option (Nat × Simulator) := do
  let byte ← data[i]?
  if byte = ESC then handle_esc_sequence s data i
  else if byte = GS then handle_gs_sequence s data i
  else if byte = FS then handle_fs_sequence s data i
  else if byte = LF then some (i + 1, flush_line s)
  else if byte = CR then some (i + 1, s)
  else if 32 ≤ byte ∧ byte ≤ 126 then
    some (i + 1, { s with current_line := s.current_line.push (Char.ofNat byte) })
  else some (i + 1, s)

/-- The `while i < len(data)` scan loop, with a step-count bound `fuel`:
`none` marks either a raised exception inside a step or fuel running out
before the cursor reached the end. -/
def processLoop (data : List Nat) : Nat → Nat → Simulator → Option Simulator
  | 0, i, s => if i < data.length then none else some s
  | fuel + 1, i, s =>
    if i < data.length then
      match step data i s with
      | none => none
      | some (i', s') => processLoop data fuel i' s'
    else some s

/-- `print_buffer`: if both the buffer and the current line are empty,
produce no output and leave the simulator untouched; otherwise flush the
current line, hand the buffer's lines to the display collaborator (the
second component) and clear the buffer. -/
def print_buffer (s : Simulator) : Simulator × List String :=
  if s.buffer = [] ∧ s.current_line = "" then (s, [])
  else
    let s := flush_line s
    ({ s with buffer := [] }, s.buffer)

/-- `process_data(data)`: scan the whole byte sequence from cursor 0,
then print the buffer.  `data.length` steps always suffice because the
cursor strictly increases on every step. -/
def process_data (s : Simulator) (data : List Nat) : Option (Simulator × List String) :=
  (processLoop data data.length 0 s).map print_buffer

/-- Successive calls of `process_data` on the same engine instance: the
simulator record (including its `PrinterState`) is threaded from one
batch to the next, exactly as the Python object's fields persist across
`handle_client` calls. -/
def process_batches (s : Simulator) : List (List Nat) → Option Simulator
  | [] => some s
  | d :: ds => (process_data s d).bind (fun r => process_batches r.1 ds)

/-! ### Spec-side rendering definitions (for comparison with `format_line`)

`format_line_claimed` follows the spec's rendering words literally,
including its centering rule "extra space on the right".
`format_line_amended` differs from it only in the centering rule, amended
to match CPython's `str.center`. -/

/-- Centering as the spec claims it: pad both sides as evenly as
possible, any extra space placed on the right. -/
def claimedCenter (s : String) (width : Nat) : String :=
  if s.length ≥ width then s
  else
    let marg := width - s.length
    spaces (marg / 2) ++ s ++ spaces (marg - marg / 2)

/-- Centering as amended: pad both sides as evenly as possible; when the
leftover margin is odd, the extra space goes to the left when the target
width is also odd, and to the right otherwise. -/
def amendedCenter (s : String) (width : Nat) : String :=
  if s.length ≥ width then s
  else
    let marg := width - s.length
    let left := marg / 2 + (if marg % 2 = 1 ∧ width % 2 = 1 then 1 else 0)
    spaces left ++ s ++ spaces (marg - left)

/-- The spec's rendering pipeline as claimed: width compute, justify
(with `claimedCenter`), emphasis annotation, scaling expansion. -/
def format_line_claimed (st : PrinterState) (text : String) : String :=
  let effective_width := st.chars_per_line
  let effective_width := if st.double_width then effective_width / 2 else effective_width
  let effective_width :=
    if st.font_size > 1 then effective_width / st.font_size else effective_width
  let text :=
    if st.alignment = 1 then claimedCenter text effective_width
    else if st.alignment = 2 then pyRjust text effective_width
    else pyLjust text effective_width
  let text := if st.emphasized then "\x1b[1m" ++ text ++ "\x1b[0m" else text
  if st.double_width || st.font_size > 1 then spaceJoin text else text

/-- The spec's rendering pipeline with only the centering rule amended. -/
def format_line_amended (st : PrinterState) (text : String) : String :=
  let effective_width := st.chars_per_line
  let effective_width := if st.double_width then effective_width / 2 else effective_width
  let effective_width :=
    if st.font_size > 1 then effective_width / st.font_size else effective_width
  let text :=
    if st.alignment = 1 then amendedCenter text effective_width
    else if st.alignment = 2 then pyRjust text effective_width
    else pyLjust text effective_width
  let text := if st.emphasized then "\x1b[1m" ++ text ++ "\x1b[0m" else text
  if st.double_width || st.font_size > 1 then spaceJoin text else text

/-! ### Helper lemmas -/

lemma and_and_one (m w : Nat) : m &&& w &&& 1 = if m % 2 = 1 ∧ w % 2 = 1 then 1 else 0 := by
  have h1 : (m &&& w) &&& 1 = (m &&& w) % 2 := Nat.and_one_is_mod _
  have h2 : (m &&& w).testBit 0 = (m.testBit 0 && w.testBit 0) := Nat.testBit_and m w 0
  simp only [Nat.testBit_zero] at h2
  rw [h1]
  rcases Nat.mod_two_eq_zero_or_one (m &&& w) with h | h <;>
    rcases Nat.mod_two_eq_zero_or_one m with hm | hm <;>
    rcases Nat.mod_two_eq_zero_or_one w with hw | hw <;>
    simp [h, hm, hw] at h2 ⊢

lemma pyCenter_eq_amendedCenter (s : String) (width : Nat) :
    pyCenter s width = amendedCenter s width := by
  simp only [pyCenter, amendedCenter, and_and_one]

lemma flush_line_state (s : Simulator) : (flush_line s).state = s.state := by
  unfold flush_line; split <;> rfl

lemma flush_line_current_line (s : Simulator) : (flush_line s).current_line = "" := by
  unfold flush_line
  split
  · rfl
  · next h => simpa using h

lemma print_buffer_state (s : Simulator) : (print_buffer s).1.state = s.state := by
  unfold print_buffer
  split
  · rfl
  · exact flush_line_state s

lemma print_buffer_fields (s : Simulator) :
    (print_buffer s).1.current_line = "" ∧ (print_buffer s).1.buffer = [] ∧
      (print_buffer s).2 = (flush_line s).buffer := by
  unfold print_buffer
  split
  · next h =>
    have hf : flush_line s = s := by unfold flush_line; simp [h.2]
    simp [h.1, h.2, hf]
  · exact ⟨flush_line_current_line s, rfl, rfl⟩

lemma handle_esc_run (s : Simulator) (data : List Nat) (i : Nat) :
    ∃ i' s', handle_esc_sequence s data i = some (i', s') ∧ i < i' ∧
      (s'.state.chars_per_line = s.state.chars_per_line ∨ s'.state.chars_per_line = 48) := by
  unfold handle_esc_sequence
  by_cases hg : i + 1 ≥ data.length
  · rw [if_pos hg]; exact ⟨_, _, rfl, by omega, Or.inl rfl⟩
  rw [if_neg hg, List.getElem?_eq_getElem (show i + 1 < data.length by omega)]
  simp only [Option.bind_eq_bind, Option.some_bind]
  by_cases h1 : data[i + 1] = 0x40
  · rw [if_pos h1]; exact ⟨_, _, rfl, by omega, Or.inr rfl⟩
  rw [if_neg h1]
  by_cases h2 : data[i + 1] = 0x61
  · rw [if_pos h2]
    by_cases hl : i + 2 < data.length
    · rw [if_pos hl, List.getElem?_eq_getElem hl]
      simp only [Option.bind_eq_bind, Option.some_bind]
      refine ⟨_, _, rfl, by omega, Or.inl ?_⟩
      simp [flush_line_state]
    · rw [if_neg hl]; exact ⟨_, _, rfl, by omega, Or.inl rfl⟩
  rw [if_neg h2]
  by_cases h3 : data[i + 1] = 0x45
  · rw [if_pos h3]
    by_cases hl : i + 2 < data.length
    · rw [if_pos hl, List.getElem?_eq_getElem hl]
      simp only [Option.bind_eq_bind, Option.some_bind]
      exact ⟨_, _, rfl, by omega, Or.inl rfl⟩
    · rw [if_neg hl]; exact ⟨_, _, rfl, by omega, Or.inl rfl⟩
  rw [if_neg h3]
  by_cases h4 : data[i + 1] = 0x64
  · rw [if_pos h4]
    by_cases hl : i + 2 < data.length
    · rw [if_pos hl, List.getElem?_eq_getElem hl]
      simp only [Option.bind_eq_bind, Option.some_bind]
      refine ⟨_, _, rfl, by omega, Or.inl ?_⟩
      simp [flush_line_state]
    · rw [if_neg hl]; exact ⟨_, _, rfl, by omega, Or.inl rfl⟩
  rw [if_neg h4]
  by_cases h5 : data[i + 1] = 0x24
  · rw [if_pos h5]; exact ⟨_, _, rfl, by omega, Or.inl rfl⟩
  rw [if_neg h5]
  by_cases h6 : data[i + 1] = 0x74
  · rw [if_pos h6]
    by_cases hl : i + 2 < data.length
    · rw [if_pos hl, List.getElem?_eq_getElem hl]
      simp only [Option.bind_eq_bind, Option.some_bind]
      exact ⟨_, _, rfl, by omega, Or.inl rfl⟩
    · rw [if_neg hl]; exact ⟨_, _, rfl, by omega, Or.inl rfl⟩
  rw [if_neg h6]
  by_cases h7 : data[i + 1] = 0x21
  · rw [if_pos h7]
    by_cases hl : i + 2 < data.length
    · rw [if_pos hl, List.getElem?_eq_getElem hl]
      simp only [Option.bind_eq_bind, Option.some_bind]
      exact ⟨_, _, rfl, by omega, Or.inl rfl⟩
    · rw [if_neg hl]; exact ⟨_, _, rfl, by omega, Or.inl rfl⟩
  rw [if_neg h7]
  exact ⟨_, _, rfl, by omega, Or.inl rfl⟩

lemma handle_gs_run (s : Simulator) (data : List Nat) (i : Nat) :
    ∃ i' s', handle_gs_sequence s data i = some (i', s') ∧ i < i' ∧
      (s'.state.chars_per_line = s.state.chars_per_line ∨ s'.state.chars_per_line = 48) := by
  unfold handle_gs_sequence
  by_cases hg : i + 1 ≥ data.length
  · rw [if_pos hg]; exact ⟨_, _, rfl, by omega, Or.inl rfl⟩
  rw [if_neg hg, List.getElem?_eq_getElem (show i + 1 < data.length by omega)]
  simp only [Option.bind_eq_bind, Option.some_bind]
  by_cases h1 : data[i + 1] = 0x56
  · rw [if_pos h1]
    refine ⟨_, _, rfl, by omega, Or.inl ?_⟩
    simp [flush_line_state]
  rw [if_neg h1]
  by_cases h2 : data[i + 1] = 0x21
  · rw [if_pos h2]
    by_cases hl : i + 2 < data.length
    · rw [if_pos hl, List.getElem?_eq_getElem hl]
      simp only [Option.bind_eq_bind, Option.some_bind]
      exact ⟨_, _, rfl, by omega, Or.inl rfl⟩
    · rw [if_neg hl]; exact ⟨_, _, rfl, by omega, Or.inl rfl⟩
  rw [if_neg h2]
  exact ⟨_, _, rfl, by omega, Or.inl rfl⟩

lemma handle_fs_run (s : Simulator) (data : List Nat) (i : Nat) :
    ∃ i', handle_fs_sequence s data i = some (i', s) ∧ i < i' := by
  unfold handle_fs_sequence
  by_cases hg : i + 1 ≥ data.length
  · rw [if_pos hg]; exact ⟨_, rfl, by omega⟩
  rw [if_neg hg, List.getElem?_eq_getElem (show i + 1 < data.length by omega)]
  simp only [Option.bind_eq_bind, Option.some_bind]
  by_cases h1 : data[i + 1] = 0x2E
  · rw [if_pos h1]; exact ⟨_, rfl, by omega⟩
  rw [if_neg h1]
  exact ⟨_, rfl, by omega⟩

lemma step_run (data : List Nat) (i : Nat) (s : Simulator) (h : i < data.length) :
    ∃ i' s', step data i s = some (i', s') ∧ i < i' ∧
      (s'.state.chars_per_line = s.state.chars_per_line ∨ s'.state.chars_per_line = 48) ∧
      (data[i] ≠ ESC → data[i] ≠ GS → s'.state = s.state) := by
  unfold step
  rw [List.getElem?_eq_getElem h]
  simp only [Option.bind_eq_bind, Option.some_bind]
  by_cases h1 : data[i] = ESC
  · rw [if_pos h1]
    obtain ⟨i', s', heq, hlt, hcpl⟩ := handle_esc_run s data i
    exact ⟨i', s', heq, hlt, hcpl, fun hne _ => absurd h1 hne⟩
  rw [if_neg h1]
  by_cases h2 : data[i] = GS
  · rw [if_pos h2]
    obtain ⟨i', s', heq, hlt, hcpl⟩ := handle_gs_run s data i
    exact ⟨i', s', heq, hlt, hcpl, fun _ hne => absurd h2 hne⟩
  rw [if_neg h2]
  by_cases h3 : data[i] = FS
  · rw [if_pos h3]
    obtain ⟨i', heq, hlt⟩ := handle_fs_run s data i
    exact ⟨i', s, heq, hlt, Or.inl rfl, fun _ _ => rfl⟩
  rw [if_neg h3]
  by_cases h4 : data[i] = LF
  · rw [if_pos h4]
    exact ⟨_, _, rfl, by omega, Or.inl (by simp [flush_line_state]),
      fun _ _ => flush_line_state s⟩
  rw [if_neg h4]
  by_cases h5 : data[i] = CR
  · rw [if_pos h5]; exact ⟨_, _, rfl, by omega, Or.inl rfl, fun _ _ => rfl⟩
  rw [if_neg h5]
  by_cases h6 : 32 ≤ data[i] ∧ data[i] ≤ 126
  · rw [if_pos h6]; exact ⟨_, _, rfl, by omega, Or.inl rfl, fun _ _ => rfl⟩
  rw [if_neg h6]
  exact ⟨_, _, rfl, by omega, Or.inl rfl, fun _ _ => rfl⟩

lemma processLoop_total (data : List Nat) :
    ∀ fuel i s, data.length ≤ i + fuel → ∃ t, processLoop data fuel i s = some t := by
  intro fuel
  induction fuel with
  | zero =>
    intro i s h
    refine ⟨s, ?_⟩
    unfold processLoop
    rw [if_neg (by omega)]
  | succ n ih =>
    intro i s h
    unfold processLoop
    by_cases hi : i < data.length
    · rw [if_pos hi]
      obtain ⟨i', s', hstep, hlt, -, -⟩ := step_run data i s hi
      rw [hstep]
      exact ih i' s' (by omega)
    · rw [if_neg hi]
      exact ⟨s, rfl⟩

lemma processLoop_state_inv (data : List Nat) :
    ∀ fuel i s t, processLoop data fuel i s = some t →
      ((∀ b ∈ data, b ≠ ESC ∧ b ≠ GS) → t.state = s.state) ∧
      (t.state.chars_per_line = s.state.chars_per_line ∨ t.state.chars_per_line = 48) := by
  intro fuel
  induction fuel with
  | zero =>
    intro i s t h
    unfold processLoop at h
    by_cases hi : i < data.length
    · rw [if_pos hi] at h; exact absurd h (by simp)
    · rw [if_neg hi] at h
      obtain rfl : s = t := by simpa using h
      exact ⟨fun _ => rfl, Or.inl rfl⟩
  | succ n ih =>
    intro i s t h
    unfold processLoop at h
    by_cases hi : i < data.length
    · rw [if_pos hi] at h
      obtain ⟨i', s', hstep, hlt, hcpl, hst⟩ := step_run data i s hi
      rw [hstep] at h
      obtain ⟨ih1, ih2⟩ := ih i' s' t h
      constructor
      · intro hnc
        have hmem : data[i] ∈ data := List.getElem_mem hi
        have := hnc data[i] hmem
        rw [ih1 hnc, hst this.1 this.2]
      · rcases ih2 with h2 | h2
        · rw [h2]; exact hcpl
        · exact Or.inr h2
    · rw [if_neg hi] at h
      obtain rfl : s = t := by simpa using h
      exact ⟨fun _ => rfl, Or.inl rfl⟩
lemma getElem?_some_lt {data : List Nat} {k v : Nat} (h : data[k]? = some v) :
    k < data.length := by
  by_contra hc
  rw [List.getElem?_eq_none_iff.mpr (by omega)] at h
  exact Option.noConfusion h

lemma esc_at_eq (s : Simulator) (data : List Nat) (i : Nat)
    (h : data[i + 1]? = some 0x40) :
    handle_esc_sequence s data i = some (i + 2, { s with state := {} }) := by
  have hlen := getElem?_some_lt h
  unfold handle_esc_sequence
  rw [if_neg (by omega), h]
  simp only [Option.bind_eq_bind, Option.some_bind, if_true]

lemma gs_V_eq (s : Simulator) (data : List Nat) (i : Nat)
    (h : data[i + 1]? = some 0x56) :
    handle_gs_sequence s data i = some (i + 3,
      { flush_line s with buffer := (flush_line s).buffer ++
          [String.mk (List.replicate s.state.chars_per_line '-')] }) := by
  have hlen := getElem?_some_lt h
  unfold handle_gs_sequence
  rw [if_neg (by omega), h]
  simp only [Option.bind_eq_bind, Option.some_bind, if_true]
  rw [flush_line_state]

lemma gs_size_eq (s : Simulator) (data : List Nat) (i n : Nat)
    (h1 : data[i + 1]? = some 0x21) (h2 : data[i + 2]? = some n) :
    handle_gs_sequence s data i = some (i + 3, { s with state := { s.state with
      font_size := max (((n &&& 0x70) >>> 4) + 1) ((n &&& 0x07) + 1) } }) := by
  have hlen1 := getElem?_some_lt h1
  have hlen2 := getElem?_some_lt h2
  unfold handle_gs_sequence
  rw [if_neg (by omega), h1]
  simp only [Option.bind_eq_bind, Option.some_bind, if_true]
  rw [if_pos hlen2, h2]
  simp only [Option.bind_eq_bind, Option.some_bind]
  rw [if_neg (show ¬((33 : Nat) = 86) by decide)]

lemma and_seven (n : Nat) : n &&& 0x07 = n % 8 := by
  have h := Nat.and_pow_two_sub_one_eq_mod n 3
  norm_num at h
  exact h

lemma and_seventy_shift (n : Nat) : (n &&& 0x70) >>> 4 = n / 16 % 8 := by
  have h1 : (n &&& 0x70) >>> 4 = (n >>> 4) &&& 7 := by
    apply Nat.eq_of_testBit_eq
    intro j
    have h70 : (0x70 : Nat) = 7 <<< 4 := by decide
    simp only [Nat.testBit_shiftRight, Nat.testBit_and, h70, Nat.testBit_shiftLeft]
    simp [Nat.add_sub_cancel_left]
  rw [h1, Nat.shiftRight_eq_div_pow]
  have h2 := Nat.and_pow_two_sub_one_eq_mod (n / 2 ^ 4) 3
  norm_num at h2 ⊢
  exact h2

lemma process_data_total (s : Simulator) (data : List Nat) :
    ∃ r, process_data s data = some r := by
  obtain ⟨t, ht⟩ := processLoop_total data data.length 0 s (by omega)
  refine ⟨print_buffer t, ?_⟩
  unfold process_data
  rw [ht]
  rfl

/-! ### Claim theorems -/

/-- C1: for every finite input byte sequence, however malformed
(truncated commands, unknown selectors, out-of-range bytes),
process_data decodes it to completion without raising: every index
access is guarded, so the decoder never produces the none that models a
raised IndexError, and the scan reaches the end of the sequence. -/
theorem C1_process_data_never_raises (s : Simulator) (data : List Nat) :
    ∃ r, process_data s data = some r :=
  process_data_total s data

/-- C2: on every iteration of the process_data scan loop, the next
cursor position returned by a successful step (a sub-decoder call or an
inline advance) is strictly greater than the cursor before the step. -/
theorem C2_cursor_strictly_increases (data : List Nat) (i : Nat) (s : Simulator)
    (i' : Nat) (s' : Simulator) (h : step data i s = some (i', s')) : i < i' := by
  by_cases hi : i < data.length
  · obtain ⟨j, t, heq, hlt, -, -⟩ := step_run data i s hi
    rw [heq] at h
    have hj : j = i' ∧ t = s' := by simpa using h
    omega
  · exfalso
    unfold step at h
    rw [List.getElem?_eq_none_iff.mpr (by omega)] at h
    simp at h

/-- Witness for C2 at a concrete input: one printable byte advances the
cursor from 0 to 1. -/
theorem C2_witness : (0 : Nat) < 1 :=
  C2_cursor_strictly_increases [65] 0 {} 1 { current_line := "A" } (by decide)

/-- C3 counterexample: with centering selected and font size 5 the
effective width is 48 / 5 = 9 (odd); Python's str.center puts the extra
space of the odd margin on the LEFT for an odd width, so format_line
differs from the spec's "extra space on the right" pipeline. -/
theorem C3_center_counterexample :
    format_line { alignment := 1, font_size := 5 } "hi" ≠
      format_line_claimed { alignment := 1, font_size := 5 } "hi" := by
  decide

/-- C3 (amended): format_line renders in the exact claimed order
(effective width, justification, emphasis annotation, scaling
expansion), with the centering rule amended: the extra space of an odd
margin goes to the left when the effective width is odd, and to the
right otherwise. -/
theorem C3_format_line_pipeline (st : PrinterState) (text : String) :
    format_line st text = format_line_amended st text := by
  simp only [format_line, format_line_amended, pyCenter_eq_amendedCenter]

/-- C4: decoding ESC @ at any cursor position replaces the printer state
with a freshly defaulted record (every style field back to its default)
and returns cursor i + 2, consuming exactly 2 bytes. -/
theorem C4_esc_at_resets (s : Simulator) (data : List Nat) (i : Nat)
    (h : data[i + 1]? = some 0x40) :
    handle_esc_sequence s data i = some (i + 2, { s with state := {} }) :=
  esc_at_eq s data i h

/-- Witness for C4: a fully styled state is reset to the default record. -/
theorem C4_witness :
    handle_esc_sequence
      { state := { chars_per_line := 32, alignment := 2, emphasized := true,
                   double_width := true, double_height := true, font_size := 4,
                   font_b := true } }
      [0x1B, 0x40] 0 = some (2, ({} : Simulator)) :=
  C4_esc_at_resets
    { state := { chars_per_line := 32, alignment := 2, emphasized := true,
                 double_width := true, double_height := true, font_size := 4,
                 font_b := true } }
    [0x1B, 0x40] 0 (by decide)

/-- C5 counterexample: on the 2-byte input ESC, 'a' the sub-decoder
returns next cursor 3 (the command's full width), not 2, so the claim
"the cursor advances by exactly the 2 available bytes" is false. -/
theorem C5_truncated_counterexample :
    handle_esc_sequence {} [ESC, 0x61] 0 = some (3, {}) ∧ (3 : Nat) ≠ 2 :=
  ⟨rfl, by decide⟩

/-- C5 (amended): on input consisting solely of the truncated
justification command ESC, 'a', the decoder reads no byte beyond the
two present and leaves the simulator (alignment included) unchanged; it
returns next cursor 3 = i + 3, one past the end, which ends the scan,
so processing the stream completes with the alignment field intact. -/
theorem C5_truncated_justification (s : Simulator) :
    handle_esc_sequence s [ESC, 0x61] 0 = some (3, s) ∧
    process_data s [ESC, 0x61] = some (print_buffer s) ∧
    (print_buffer s).1.state.alignment = s.state.alignment := by
  refine ⟨rfl, rfl, ?_⟩
  rw [print_buffer_state]

/-- C6 counterexample: at argument byte n = 0xFF the high nibble is 15
and the low nibble 15, so the claim predicts font size 16, but the code
masks with 0x70 and 0x07 and sets font size 8. -/
theorem C6_char_size_counterexample :
    handle_gs_sequence {} [GS, 0x21, 0xFF] 0 =
      some (3, { state := { font_size := 8 } }) ∧
    max ((0xFF >>> 4) + 1) ((0xFF &&& 0x0F) + 1) = 16 ∧ (8 : Nat) ≠ 16 := by
  refine ⟨by decide, by decide, by decide⟩

/-- C6 (amended): for every argument byte n, GS ! decodes bits 4 to 6 of
n (value n / 16 % 8) as the width magnification and bits 0 to 2 (value
n % 8) as the height magnification, each magnification being that value
plus 1, and sets font_size to the maximum of the two. -/
theorem C6_char_size_decode (s : Simulator) (data : List Nat) (i n : Nat)
    (h1 : data[i + 1]? = some 0x21) (h2 : data[i + 2]? = some n) :
    handle_gs_sequence s data i = some (i + 3, { s with state := { s.state with
      font_size := max (n / 16 % 8 + 1) (n % 8 + 1) } }) := by
  rw [gs_size_eq s data i n h1 h2, and_seventy_shift, and_seven]

/-- Witness for C6 at n = 0x35: width magnification 4, height
magnification 6, font size 6. -/
theorem C6_witness :
    handle_gs_sequence {} [GS, 0x21, 0x35] 0 =
      some (3, { state := { font_size := 6 } }) := by
  rw [C6_char_size_decode {} [GS, 0x21, 0x35] 0 0x35 (by decide) (by decide)]
  decide

/-- C7: GS V first flushes the current line, then appends exactly one
line of chars_per_line repeated separator characters to the buffer; the
appended line depends only on chars_per_line, not on alignment,
emphasis, width doubling, or font size. -/
theorem C7_cut_paper (s : Simulator) (data : List Nat) (i : Nat)
    (h : data[i + 1]? = some 0x56) :
    handle_gs_sequence s data i = some (i + 3,
      { flush_line s with buffer := (flush_line s).buffer ++
          [String.mk (List.replicate s.state.chars_per_line '-')] }) :=
  gs_V_eq s data i h

/-- Witness for C7: with a styled state and a pending line "ab", the cut
command flushes the rendered line and appends the dash separator. -/
theorem C7_witness :
    handle_gs_sequence
      { state := { chars_per_line := 4, alignment := 2, emphasized := true },
        current_line := "ab" } [GS, 0x56, 0] 0 =
      some (3, { state := { chars_per_line := 4, alignment := 2, emphasized := true },
                 buffer := ["\x1b[1m  ab\x1b[0m", "----"] }) := by
  rw [C7_cut_paper _ [GS, 0x56, 0] 0 (by decide)]
  decide

/-- C8: the simulator record, printer state included, is threaded
unchanged from the end of one process_data batch into the start of the
next (process_batches models successive calls on one engine instance);
a batch with no ESC or GS introducer bytes leaves the printer state
exactly as it was, and the line width can only ever change back to the
default 48, which happens only through the full reset of the
initialization command. -/
theorem C8_state_persists (s : Simulator) (d1 d2 : List Nat)
    (r : Simulator × List String) (h : process_data s d1 = some r) :
    process_batches s [d1, d2] = (process_data r.1 d2).map Prod.fst ∧
    (d1.all (fun b => b != ESC && b != GS) = true → r.1.state = s.state) ∧
    (r.1.state.chars_per_line = s.state.chars_per_line ∨
      r.1.state.chars_per_line = 48) := by
  have h' := h
  unfold process_data at h'
  obtain ⟨t, ht, hpt⟩ := Option.map_eq_some'.mp h'
  obtain ⟨inv1, inv2⟩ := processLoop_state_inv d1 d1.length 0 s t ht
  have hr1 : r.1.state = t.state := by rw [← hpt, print_buffer_state]
  refine ⟨?_, ?_, ?_⟩
  · obtain ⟨r2, h2⟩ := process_data_total r.1 d2
    simp [process_batches, h, h2]
  · intro hall
    have hnc : ∀ b ∈ d1, b ≠ ESC ∧ b ≠ GS := by
      intro b hb
      have hb2 := List.all_eq_true.mp hall b hb
      simpa using hb2
    rw [hr1, inv1 hnc]
  · rw [hr1]
    exact inv2

/-- Witness for C8: a printable-only batch on a widened state leaves the
state untouched into the next batch. -/
theorem C8_witness :
    process_batches { state := { chars_per_line := 10 } } [[65], [66]] =
      (process_data ({ state := { chars_per_line := 10 } } : Simulator) [66]).map
        Prod.fst ∧
    ([65].all (fun b => b != ESC && b != GS) = true →
      ({ state := { chars_per_line := 10 } } : Simulator).state =
        ({ state := { chars_per_line := 10 } } : Simulator).state) ∧
    (({ state := { chars_per_line := 10 } } : Simulator).state.chars_per_line =
        ({ state := { chars_per_line := 10 } } : Simulator).state.chars_per_line ∨
      ({ state := { chars_per_line := 10 } } : Simulator).state.chars_per_line = 48) :=
  C8_state_persists { state := { chars_per_line := 10 } } [65] [66]
    ({ state := { chars_per_line := 10 } }, [pyLjust "A" 10]) (by decide)

/-- C9: the initialization command ESC @ replaces the entire
PrinterState with a freshly defaulted record whose chars_per_line is
48, discarding any non-default line width that was in effect. -/
theorem C9_esc_at_resets_width (s : Simulator) (data : List Nat) (i : Nat)
    (h : data[i + 1]? = some 0x40) :
    handle_esc_sequence s data i = some (i + 2, { s with state := {} }) ∧
    PrinterState.chars_per_line {} = 48 :=
  ⟨esc_at_eq s data i h, rfl⟩

/-- Witness for C9: a state with line width 10 goes back to the default
record, whose width is 48. -/
theorem C9_witness :
    handle_esc_sequence { state := { chars_per_line := 10 } } [0x1B, 0x40] 0 =
      some (2, ({} : Simulator)) ∧
    PrinterState.chars_per_line {} = 48 :=
  C9_esc_at_resets_width { state := { chars_per_line := 10 } } [0x1B, 0x40] 0
    (by decide)

/-- C10: after every successful process_data call the current line is
empty and the buffer is empty; the batch output is exactly the buffer
of the flushed end-of-loop simulator, so trailing text not terminated
by a line feed is rendered with the final state and emitted. -/
theorem C10_buffer_cleared (s : Simulator) (data : List Nat)
    (r : Simulator × List String) (h : process_data s data = some r) :
    r.1.current_line = "" ∧ r.1.buffer = [] ∧
    (processLoop data data.length 0 s).map (fun t => (flush_line t).buffer) =
      some r.2 := by
  unfold process_data at h
  obtain ⟨t, ht, hpt⟩ := Option.map_eq_some'.mp h
  obtain ⟨f1, f2, f3⟩ := print_buffer_fields t
  subst hpt
  refine ⟨f1, f2, ?_⟩
  rw [ht]
  simp [f3]

/-- Witness for C10: the unterminated text "Hi" is flushed into the
batch output and the simulator ends with empty line and buffer. -/
theorem C10_witness :
    (({} : Simulator), [pyLjust "Hi" 48]).1.current_line = "" ∧
    (({} : Simulator), [pyLjust "Hi" 48]).1.buffer = ([] : List String) ∧
    (processLoop [72, 105] ([72, 105] : List Nat).length 0 {}).map
        (fun t => (flush_line t).buffer) =
      some (({} : Simulator), [pyLjust "Hi" 48]).2 :=
  C10_buffer_cleared {} [72, 105] (({} : Simulator), [pyLjust "Hi" 48]) (by decide)

end PrinterEmu
